import Mathlib

/-!
Shallow embedding of the Football_Odds_Breakdown strategy engine:
the EMA smoothing filter, the position state machine, the batch
backtester (advanced_simulate.py), the live runner (simulate_live.py),
the malformed-file handling of the filtering stage (filter.py), and the
fixed halftime fraction of the sweep orchestrator (super_checker_full.py).
Prices are modelled as exact rationals; `price_cents` integers (or null)
become `Option ℤ`, prices in the unit interval become `ℚ`.
-/

namespace FootballOdds

/-- Python `int()` applied to a real value: truncation toward zero. -/
def pythonInt (q : ℚ) : ℤ := if 0 ≤ q then ⌊q⌋ else -⌊-q⌋

/-- First non-null element of a list, Python `next((p for p in l if p is not None), None)`. -/
def firstSome {α : Type} : List (Option α) → Option α
  | [] => none
  | none :: rest => firstSome rest
  | some a :: _ => some a

/-- Last non-null element, Python `next((p for p in reversed(l) if p is not None), d)`. -/
def lastSome {α : Type} (l : List (Option α)) : Option α := firstSome l.reverse

/-- Helper for `gameKey`: returns the part of the name before its LAST dash,
or `none` when the name has no dash. -/
def gameKeyAux : List Char → Option (List Char)
  | [] => none
  | c :: cs =>
    match gameKeyAux cs with
    | some k => some (c :: k)
    | none => if c = '-' then some [] else none

/-- Python `f.rsplit("-", 1)[0]`: the filename up to (excluding) its last dash,
or the whole filename when it contains no dash (advanced_simulate.py line 42-43). -/
def gameKey (f : String) : String :=
  match gameKeyAux f.toList with
  | some k => String.mk k
  | none => f

/-- Python `f.endswith(".json")`. -/
def isJsonFile (f : String) : Bool := ".json".toList.isSuffixOf f.toList

namespace AdvancedSimulate

/-- advanced_simulate.py line 5. -/
def START_BANKROLL : ℚ := 20

/-- advanced_simulate.py line 6: flat 2-dollar bet per game. -/
def FLAT_BET_AMOUNT : ℚ := 2

/-- One step of `incremental_ema_smooth`'s inner `smooth_next`
(advanced_simulate.py lines 17-23): the closure state `last` is passed
explicitly (`none` before the first sample). -/
def smooth_next (alpha : ℚ) (last : Option ℚ) (new_point : ℚ) : ℚ :=
  match last with
  | none => new_point
  | some l => alpha * new_point + (1 - alpha) * l

/-- The `smoothed_full` loop of `simulate_position` (lines 55-60): null prices
produce a null smoothed entry and leave the smoother state unchanged. -/
def smoothed_full (alpha : ℚ) : Option ℚ → List (Option ℚ) → List (Option ℚ)
  | _, [] => []
  | last, none :: ps => none :: smoothed_full alpha last ps
  | last, some p :: ps =>
    let s := smooth_next alpha last p
    some s :: smoothed_full alpha (some s) ps

/-- Keyword parameters of `run_simulation` with their default values
(advanced_simulate.py lines 28-35). -/
structure Params where
  min_start : ℚ := 14/100
  max_start : ℚ := 77/100
  gain_threshold : ℚ := 3/100
  halftime_fraction : ℚ := 1
  fall_fraction : ℚ := 81/100
  ema_alpha : ℚ := 25/100
  deriving DecidableEq, Repr

def defaultParams : Params := {}

/-- Which of the three sell conditions fired (the code itself does not record
this; the tag only names the branch taken). -/
inductive Reason
  | peakDrop
  | retracement
  | stagnation
  deriving DecidableEq, Repr

/-- Sell condition 1 (line 82): `max_gain >= gain_threshold and gain < gain_threshold`. -/
abbrev peakDropTrig (p : Params) (max_gain gain : ℚ) : Prop :=
  max_gain ≥ p.gain_threshold ∧ gain < p.gain_threshold

/-- Sell condition 2 (line 85): `max_gain > gain_threshold and gain <= max_gain * fall_fraction`. -/
abbrev retracementTrig (p : Params) (max_gain gain : ℚ) : Prop :=
  max_gain > p.gain_threshold ∧ gain ≤ max_gain * p.fall_fraction

/-- Sell condition 3 (line 88): `idx == halftime_index and smooth_price < start_price + gain_threshold`. -/
abbrev stagnationTrig (p : Params) (halftime_index : ℤ) (idx : ℕ) (smooth_price start_price : ℚ) : Prop :=
  (idx : ℤ) = halftime_index ∧ smooth_price < start_price + p.gain_threshold

/-- The for-loop of `simulate_position` (lines 71-90) over `(smoothed, raw)` pairs.
Besides the loop's outcome (`none` = ran off the end, `some (sell_price, idx, reason)`
= broke out at tick `idx` selling at raw price `sell_price`) it records, as
instrumentation, the `(idx, max_gain, gain)` state at every processed tick up to
and including the selling one. Ticks with a null smoothed or null raw price are
skipped without touching `max_gain`, exactly as the `continue` statements do. -/
def sellLoopT (p : Params) (start_price : ℚ) (halftime_index : ℤ) :
    ℕ → ℚ → List (Option ℚ × Option ℚ) → List (ℕ × ℚ × ℚ) × Option (ℚ × ℕ × Reason)
  | _, _, [] => ([], none)
  | idx, max_gain, (smooth_price?, real_price?) :: rest =>
    match smooth_price?, real_price? with
    | some s, some r =>
      let gain := s - start_price
      let mg := max max_gain gain
      if peakDropTrig p mg gain then ([(idx, mg, gain)], some (r, idx, Reason.peakDrop))
      else if retracementTrig p mg gain then ([(idx, mg, gain)], some (r, idx, Reason.retracement))
      else if stagnationTrig p halftime_index idx s start_price then
        ([(idx, mg, gain)], some (r, idx, Reason.stagnation))
      else
        let res := sellLoopT p start_price halftime_index (idx + 1) mg rest
        ((idx, mg, gain) :: res.1, res.2)
    | _, _ => sellLoopT p start_price halftime_index (idx + 1) max_gain rest

/-- Line 48: `price_cents / 100` per entry, nulls kept. -/
def pricesOf (data : List (Option ℤ)) : List (Option ℚ) :=
  data.map (Option.map (fun c : ℤ => (c : ℚ) / 100))

/-- Result of one `simulate_position` call. `profit` is the float the source
returns; the other fields expose the internal state the claims talk about
(whether the entry screen passed, the sell price, the tick it sold at, which
condition fired, and the visited `(idx, max_gain, gain)` states). -/
structure SimResult where
  entered : Bool
  start_price : Option ℚ
  sell_price : Option ℚ
  sell_idx : Option ℕ
  reason : Option Reason
  trace : List (ℕ × ℚ × ℚ)
  profit : ℚ
  deriving DecidableEq, Repr

/-- Line 55-60: the `smoothed_full` list computed by `simulate_position`. -/
def smoothedOf (p : Params) (data : List (Option ℤ)) : List (Option ℚ) :=
  smoothed_full p.ema_alpha none (pricesOf data)

/-- Line 62: `start_price = next((p for p in smoothed_full if p is not None), None)`. -/
def startPriceOf (p : Params) (data : List (Option ℤ)) : Option ℚ :=
  firstSome (smoothedOf p data)

/-- Line 69: `halftime_index = int(len(smoothed_full) * halftime_fraction)`. -/
def halftimeIndexOf (p : Params) (data : List (Option ℤ)) : ℤ :=
  pythonInt (((smoothedOf p data).length : ℚ) * p.halftime_fraction)

/-- The `(smooth_price, real_price)` pairs the lines 71-90 loop runs over. -/
def tickPairs (p : Params) (data : List (Option ℤ)) : List (Option ℚ × Option ℚ) :=
  (smoothedOf p data).zip (pricesOf data)

/-- `simulate_position` (advanced_simulate.py lines 47-95), instrumented. -/
def simulate_position_t (p : Params) (data : List (Option ℤ)) : SimResult :=
  let prices := pricesOf data
  let valid_prices := prices.filterMap id
  if valid_prices = [] then ⟨false, none, none, none, none, [], 0⟩
  else
    match startPriceOf p data with
    | none => ⟨false, none, none, none, none, [], 0⟩
    | some start_price =>
      if p.min_start ≤ start_price ∧ start_price ≤ p.max_start then
        let res := sellLoopT p start_price (halftimeIndexOf p data) 0 0 (tickPairs p data)
        match res.2 with
        | some (sp, i, rsn) =>
          ⟨true, some start_price, some sp, some i, some rsn, res.1,
            FLAT_BET_AMOUNT * (sp / start_price - 1)⟩
        | none =>
          let sp := (lastSome prices).getD start_price
          ⟨true, some start_price, some sp, none, none, res.1,
            FLAT_BET_AMOUNT * (sp / start_price - 1)⟩
      else ⟨false, some start_price, none, none, none, [], 0⟩

/-- The profit `simulate_position` returns. -/
def simulate_position (p : Params) (data : List (Option ℤ)) : ℚ :=
  (simulate_position_t p data).profit

/-- The dict-building loop of `get_game_pairs` (lines 41-44): append the file
to the list of the first entry carrying its key, or add a new entry at the end
(Python dict insertion-order semantics, modelled as an association list). -/
def addFile (games : List (String × List String)) (game_key f : String) :
    List (String × List String) :=
  match games with
  | [] => [(game_key, [f])]
  | (k, v) :: rest =>
    if k = game_key then (k, v ++ [f]) :: rest
    else (k, v) :: addFile rest game_key f

/-- Folds `addFile` over the listed files in order. -/
def buildGames (acc : List (String × List String)) : List String → List (String × List String)
  | [] => acc
  | f :: fs => buildGames (addFile acc (gameKey f) f) fs

/-- `get_game_pairs` (advanced_simulate.py lines 38-45): group the folder's
`.json` files by key and keep only the keys with exactly two files. -/
def get_game_pairs (folder : List String) : List (String × List String) :=
  let files := folder.filter (fun f => isJsonFile f)
  (buildGames [] files).filter (fun kv => decide (kv.2.length = 2))

/-- Number of `.json` files in the folder sharing the given key. -/
def countKey (k : String) (folder : List String) : ℕ :=
  ((folder.filter (fun f => isJsonFile f)).filter (fun f => decide (gameKey f = k))).length

/-- One week of the lines 97-111 loop, with the file system abstracted as a
total `contents` map (the inputs produced by filter.py are well-formed JSON,
so `json.load` is modelled as total here; see `simFiles` for the fallible
version). -/
def weekProfit (p : Params) (contents : String → List (Option ℤ)) (folder : List String) : ℚ :=
  ((get_game_pairs folder).map
    (fun kv => (kv.2.map (fun f => simulate_position p (contents f))).sum)).sum

/-- `run_simulation`'s bankroll accumulation over the week folders (lines 36, 97-113). -/
def run_simulation (p : Params) (contents : String → List (Option ℤ))
    (weeks : List (List String)) : ℚ :=
  START_BANKROLL + (weeks.map (fun w => weekProfit p contents w)).sum

/-- The inner file loop of lines 106-110 with the `json.load` call modelled as
fallible: there is no try/except around it, so a parse failure propagates out
and aborts the whole run. -/
def simFiles (p : Params) (contents : String → Except String (List (Option ℤ))) :
    List String → Except String ℚ
  | [] => Except.ok 0
  | f :: fs =>
    match contents f with
    | Except.error e => Except.error e
    | Except.ok d => (simFiles p contents fs).map (fun q => simulate_position p d + q)

/-- Files of the simulated pairs in processing order. -/
def pairFiles (folder : List String) : List String :=
  (get_game_pairs folder).flatMap (fun kv => kv.2)

/-- One week of the lines 97-111 loop with fallible `json.load`. -/
def run_week_exc (p : Params) (contents : String → Except String (List (Option ℤ)))
    (folder : List String) : Except String ℚ :=
  simFiles p contents (pairFiles folder)

end AdvancedSimulate

namespace SimulateLive

/-- simulate_live.py line 11: flat 10-dollar bet per game. -/
def BET_AMOUNT : ℚ := 10

def MIN_START : ℚ := 14/100

def MAX_START : ℚ := 77/100

def GAIN_THRESHOLD : ℚ := 3/100

def FALL_FRACTION : ℚ := 81/100

/-- simulate_live.py line 16: reference sigma, minutes. -/
def SIGMA_REF : ℚ := 332/100

/-- simulate_live.py line 17. -/
def SAMPLES_PER_MINUTE : ℚ := 60

/-- `ewma_update` (simulate_live.py lines 49-53): one causal EWMA step;
with no previous value, the raw value itself. -/
def ewma_update (prev : Option ℚ) (value : ℚ) (alpha : ℚ) : ℚ :=
  match prev with
  | none => value
  | some p => alpha * value + (1 - alpha) * p

/-- `compute_alpha_from_sigma_minutes` (simulate_live.py lines 55-66). -/
def compute_alpha_from_sigma_minutes (sigma_minutes : ℚ) : ℚ :=
  let sigma_points := sigma_minutes * SAMPLES_PER_MINUTE
  let alpha := 1 / max 1 sigma_points
  max (1/1000) (min alpha (1/2))

/-- simulate_live.py line 68. -/
def ALPHA : ℚ := compute_alpha_from_sigma_minutes SIGMA_REF

/-- Modelled from the spec: `alpha = clamp(1/(sigma_minutes * samples_per_minute), 0.001, 0.5)`
(spec section 6, configuration surface), for comparison with
`compute_alpha_from_sigma_minutes`. -/
def spec_alpha_clamp (sigma_minutes : ℚ) : ℚ :=
  max (1/1000) (min (1 / (sigma_minutes * SAMPLES_PER_MINUTE)) (1/2))

/-- The live smoothing applied sample by sample, as `update_from_live_files`
(lines 112-115) does across ticks: bootstrap on the first sample, then
`ewma_update` per sample. -/
def ewma_run (alpha : ℚ) : Option ℚ → List ℚ → List ℚ
  | _, [] => []
  | prev, v :: vs =>
    let s := ewma_update prev v alpha
    s :: ewma_run alpha (some s) vs

/-- An `active_bets` entry (simulate_live.py line 93). -/
structure Bet where
  bet : ℚ
  start_price : ℚ
  max_gain : ℚ
  deriving DecidableEq, Repr

/-- What one `evaluate_sells_for_ticker` call did: whether it sold, the profit
recorded into `sold_games`/`bankroll`, the `current` (smoothed) price the sell
was logged at, and the surviving `active_bets` entry if it did not sell. -/
structure EvalResult where
  sold : Bool
  profit : Option ℚ
  sell_current : Option ℚ
  bet : Option Bet
  deriving DecidableEq, Repr

/-- Lines 136-138: `gain = current - start`; `if gain > bet["max_gain"]: bet["max_gain"] = gain`. -/
def live_max_gain (bet : Bet) (gain : ℚ) : ℚ :=
  if gain > bet.max_gain then gain else bet.max_gain

/-- Lines 141-145: the two live sell conditions combined into the one `sell` flag. -/
abbrev live_sell_cond (mg gain : ℚ) : Prop :=
  (mg ≥ GAIN_THRESHOLD ∧ gain < GAIN_THRESHOLD) ∨
    (mg > GAIN_THRESHOLD ∧ gain ≤ mg * FALL_FRACTION)

/-- `evaluate_sells_for_ticker` (simulate_live.py lines 121-155) for one ticker:
`current?` is `smoothed[ticker]` (absent when the ticker has no smoothed value),
`bet?` the ticker's `active_bets` entry. -/
def evaluate_sells_for_ticker (current? : Option ℚ) (bet? : Option Bet) : EvalResult :=
  match bet?, current? with
  | none, _ => ⟨false, none, none, none⟩
  | some bet, none => ⟨false, none, none, some bet⟩
  | some bet, some current =>
    if live_sell_cond (live_max_gain bet (current - bet.start_price)) (current - bet.start_price) then
      ⟨true, some (bet.bet * (current - bet.start_price)), some current, none⟩
    else ⟨false, none, none, some ⟨bet.bet, bet.start_price, live_max_gain bet (current - bet.start_price)⟩⟩

/-- The first loop of `place_initial_bets` (lines 78-88): initialize
`smoothed[ticker]` to the ticker's last JSONL price, skipping tickers with no
valid price. Inputs are `(ticker, last_price)` pairs. -/
def smoothedInit (inputs : List (String × Option ℚ)) : List (String × ℚ) :=
  inputs.filterMap (fun ti => ti.2.map (fun lp => (ti.1, lp)))

/-- The second loop of `place_initial_bets` (lines 91-94): open a flat bet on
every ticker whose (just initialized) smoothed price lies in the start band. -/
def place_initial_bets (inputs : List (String × Option ℚ)) : List (String × Bet) :=
  (smoothedInit inputs).filterMap (fun ts =>
    if MIN_START ≤ ts.2 ∧ ts.2 ≤ MAX_START then some (ts.1, ⟨BET_AMOUNT, ts.2, 0⟩) else none)

/-- Per-ticker slice of the live runner's global state (`smoothed`,
`active_bets`, `bankroll`); the dicts are independent per ticker. -/
structure TickerState where
  smoothed : Option ℚ
  bet : Option Bet
  bankroll : ℚ
  deriving DecidableEq, Repr

/-- `place_initial_bets` restricted to one ticker whose last JSONL price is
`last_price?`: bootstrap the smoothed value and bet iff it is in the band. -/
def init_ticker (last_price? : Option ℚ) : TickerState :=
  match last_price? with
  | none => ⟨none, none, 0⟩
  | some lp =>
    if MIN_START ≤ lp ∧ lp ≤ MAX_START then ⟨some lp, some ⟨BET_AMOUNT, lp, 0⟩, 0⟩
    else ⟨some lp, none, 0⟩

/-- One `main_loop` iteration for one ticker whose file's latest price is
`last_price`: `update_from_live_files` (lines 112-115: bootstrap or EWMA), then
`evaluate_sells_for_ticker`. Returns the new state plus the recorded profit and
sell price, if a sell happened this tick. -/
def live_tick (st : TickerState) (last_price : ℚ) : TickerState × (Option ℚ × Option ℚ) :=
  let s := match st.smoothed with
    | none => last_price
    | some prev => ewma_update (some prev) last_price ALPHA
  let r := evaluate_sells_for_ticker (some s) st.bet
  (⟨some s, r.bet, st.bankroll + r.profit.getD 0⟩, (r.profit, r.sell_current))

/-- Folds `live_tick` over a sequence of latest-price readings, keeping the
per-tick `(raw latest price, recorded profit, recorded sell price)` log. -/
def live_run_go (st : TickerState) : List ℚ → TickerState × List (ℚ × Option ℚ × Option ℚ)
  | [] => (st, [])
  | v :: vs =>
    let r := live_tick st v
    let rest := live_run_go r.1 vs
    (rest.1, (v, r.2.1, r.2.2) :: rest.2)

/-- The live runner for one ticker: `place_initial_bets` on the startup price,
then one `main_loop` tick per entry of `updates`. -/
def live_run (initial : Option ℚ) (updates : List ℚ) :
    TickerState × List (ℚ × Option ℚ × Option ℚ) :=
  live_run_go (init_ticker initial) updates

end SimulateLive

namespace FilterPy

/-- The parse step of filter.py's main loop (lines 99-109): non-`.json`
filenames are skipped; a file whose content fails `json.load`
(`json.JSONDecodeError`) is skipped with a warning and the loop continues
with the remaining files. -/
def process_files {D : Type} (files : List (String × Except String D)) : List (String × D) :=
  files.filterMap (fun fd =>
    if isJsonFile fd.1 then
      match fd.2 with
      | Except.ok d => some (fd.1, d)
      | Except.error _ => none
    else none)

end FilterPy

namespace SuperChecker

/-- super_checker_full.py line 15: the sweep holds the halftime fraction fixed at 1. -/
def HALFTIME_FRACTION : ℚ := 1

end SuperChecker

open AdvancedSimulate SimulateLive

/-! ## Supporting lemmas -/

lemma smoothed_full_length (alpha : ℚ) :
    ∀ (last : Option ℚ) (ps : List (Option ℚ)),
      (smoothed_full alpha last ps).length = ps.length := by
  intro last ps
  induction ps generalizing last with
  | nil => rfl
  | cons hd tl ih => cases hd <;> simp [smoothed_full, ih]

lemma pricesOf_length (data : List (Option ℤ)) : (pricesOf data).length = data.length := by
  simp [pricesOf]

lemma smoothedOf_length (p : Params) (data : List (Option ℤ)) :
    (smoothedOf p data).length = data.length := by
  rw [smoothedOf, smoothed_full_length, pricesOf_length]

lemma tickPairs_length (p : Params) (data : List (Option ℤ)) :
    (tickPairs p data).length = data.length := by
  rw [tickPairs, List.length_zip, smoothedOf_length, pricesOf_length, min_self]

lemma firstSome_smoothed_none (alpha : ℚ) :
    ∀ (last : Option ℚ) (ps : List (Option ℚ)), ps.filterMap id = [] →
      firstSome (smoothed_full alpha last ps) = none := by
  intro last ps
  induction ps generalizing last with
  | nil => intro _; rfl
  | cons hd tl ih =>
    cases hd with
    | none =>
      intro h
      simp only [List.filterMap_cons, id] at h
      exact ih last h
    | some v =>
      intro h
      simp [List.filterMap_cons] at h

lemma zip_getElem?_inv {α β : Type} :
    ∀ (l₁ : List α) (l₂ : List β) (j : ℕ) (a : α) (b : β),
      (l₁.zip l₂)[j]? = some (a, b) → l₁[j]? = some a ∧ l₂[j]? = some b := by
  intro l₁
  induction l₁ with
  | nil => intro l₂ j a b h; simp [List.zip] at h
  | cons x xs ih =>
    intro l₂ j a b h
    cases l₂ with
    | nil => simp [List.zip] at h
    | cons y ys =>
      cases j with
      | zero => simp_all
      | succ n => simpa using ih ys n a b (by simpa using h)

lemma getElem?_lt_length {α : Type} (l : List α) (j : ℕ) (v : α) (h : l[j]? = some v) :
    j < l.length := by
  rcases lt_or_le j l.length with h' | h'
  · exact h'
  · rw [List.getElem?_eq_none h'] at h
    cases h

lemma pythonInt_of_nonneg (q : ℚ) (h : 0 ≤ q) : pythonInt q = ⌊q⌋ := if_pos h

lemma pythonInt_natCast (n : ℕ) : pythonInt (n : ℚ) = n := by
  rw [pythonInt_of_nonneg _ (by positivity), Int.floor_natCast]

lemma sellLoopT_sell_spec (p : Params) (start_price : ℚ) (halftime_index : ℤ) :
    ∀ (items : List (Option ℚ × Option ℚ)) (idx : ℕ) (max_gain sp : ℚ) (i : ℕ) (rsn : Reason),
      (sellLoopT p start_price halftime_index idx max_gain items).2 = some (sp, i, rsn) →
      ∃ j s, i = idx + j ∧ items[j]? = some (some s, some sp) ∧
        (rsn = Reason.stagnation →
          (i : ℤ) = halftime_index ∧ s < start_price + p.gain_threshold) := by
  intro items
  induction items with
  | nil => intro idx mg sp i rsn h; simp [sellLoopT] at h
  | cons hd tl ih =>
    intro idx mg sp i rsn h
    obtain ⟨s?, r?⟩ := hd
    cases s? with
    | none =>
      simp only [sellLoopT] at h
      obtain ⟨j, s, hij, hget, hstag⟩ := ih (idx + 1) mg sp i rsn h
      exact ⟨j + 1, s, by omega, by simpa using hget, hstag⟩
    | some s =>
      cases r? with
      | none =>
        simp only [sellLoopT] at h
        obtain ⟨j, s', hij, hget, hstag⟩ := ih (idx + 1) mg sp i rsn h
        exact ⟨j + 1, s', by omega, by simpa using hget, hstag⟩
      | some r =>
        simp only [sellLoopT] at h
        split at h
        · simp only [Option.some.injEq, Prod.mk.injEq] at h
          obtain ⟨hr, hi, hrsn⟩ := h
          refine ⟨0, s, by omega, by simp [hr], ?_⟩
          intro hs; rw [← hrsn] at hs; cases hs
        · split at h
          · simp only [Option.some.injEq, Prod.mk.injEq] at h
            obtain ⟨hr, hi, hrsn⟩ := h
            refine ⟨0, s, by omega, by simp [hr], ?_⟩
            intro hs; rw [← hrsn] at hs; cases hs
          · split at h
            · rename_i hcond
              simp only [Option.some.injEq, Prod.mk.injEq] at h
              obtain ⟨hr, hi, hrsn⟩ := h
              refine ⟨0, s, by omega, by simp [hr], ?_⟩
              intro _
              subst hi
              exact ⟨hcond.1, hcond.2⟩
            · simp only at h
              obtain ⟨j, s', hij, hget, hstag⟩ :=
                ih (idx + 1) (max mg (s - start_price)) sp i rsn h
              exact ⟨j + 1, s', by omega, by simpa using hget, hstag⟩

/-- Branch characterization of `simulate_position_t`: either the position was
never entered (with zero profit and, when a start price exists, an
out-of-band start price), or it was entered and sold by the loop, or entered
and force-closed at the last raw price. -/
lemma simulate_position_t_char (p : Params) (data : List (Option ℤ)) :
    ((simulate_position_t p data).entered = false ∧
      (simulate_position_t p data).sell_price = none ∧
      (simulate_position_t p data).sell_idx = none ∧
      (simulate_position_t p data).reason = none ∧
      (simulate_position_t p data).profit = 0 ∧
      ∀ start, startPriceOf p data = some start →
        ¬(p.min_start ≤ start ∧ start ≤ p.max_start))
    ∨ (∃ start, startPriceOf p data = some start ∧
        (p.min_start ≤ start ∧ start ≤ p.max_start) ∧
        ((∃ sp i rsn,
            (sellLoopT p start (halftimeIndexOf p data) 0 0 (tickPairs p data)).2 =
              some (sp, i, rsn) ∧
            simulate_position_t p data = ⟨true, some start, some sp, some i, some rsn,
              (sellLoopT p start (halftimeIndexOf p data) 0 0 (tickPairs p data)).1,
              FLAT_BET_AMOUNT * (sp / start - 1)⟩)
          ∨ ((sellLoopT p start (halftimeIndexOf p data) 0 0 (tickPairs p data)).2 = none ∧
            simulate_position_t p data = ⟨true, some start,
              some ((lastSome (pricesOf data)).getD start), none, none,
              (sellLoopT p start (halftimeIndexOf p data) 0 0 (tickPairs p data)).1,
              FLAT_BET_AMOUNT * ((lastSome (pricesOf data)).getD start / start - 1)⟩))) := by
  unfold simulate_position_t
  dsimp only
  split
  · rename_i hval
    left
    refine ⟨rfl, rfl, rfl, rfl, rfl, ?_⟩
    intro start hs
    rw [startPriceOf, smoothedOf, firstSome_smoothed_none p.ema_alpha none (pricesOf data) hval]
      at hs
    cases hs
  · split
    · rename_i hstart
      left
      refine ⟨rfl, rfl, rfl, rfl, rfl, ?_⟩
      intro start hs
      rw [hstart] at hs
      cases hs
    · rename_i start hstart
      split
      · rename_i hband
        right
        refine ⟨start, hstart, hband, ?_⟩
        split
        · rename_i sp i rsn hres
          left
          exact ⟨sp, i, rsn, hres, rfl⟩
        · rename_i hres
          right
          exact ⟨hres, rfl⟩
      · rename_i hband
        left
        refine ⟨rfl, rfl, rfl, rfl, rfl, ?_⟩
        intro s hs
        rw [hstart] at hs
        cases hs
        exact hband

/-- When the loop sold the position at some tick, the sell price is the raw
price of that tick, and a stagnation exit pins the tick index and the smoothed
price there. -/
lemma simulate_sold_inv (p : Params) (data : List (Option ℤ)) (i : ℕ)
    (h : (simulate_position_t p data).sell_idx = some i) :
    ∃ start sp rsn s,
      startPriceOf p data = some start ∧
      (simulate_position_t p data).sell_price = some sp ∧
      (simulate_position_t p data).reason = some rsn ∧
      (tickPairs p data)[i]? = some (some s, some sp) ∧
      (rsn = Reason.stagnation →
        (i : ℤ) = halftimeIndexOf p data ∧ s < start + p.gain_threshold) := by
  rcases simulate_position_t_char p data with ⟨_, _, hidx, _, _, _⟩ | ⟨start, hstart, _, hcase⟩
  · rw [hidx] at h; cases h
  · rcases hcase with ⟨sp, i', rsn, hres, heq⟩ | ⟨_, heq⟩
    · rw [heq] at h
      simp only [Option.some.injEq] at h
      subst h
      obtain ⟨j, s, hij, hget, hstag⟩ :=
        sellLoopT_sell_spec p start (halftimeIndexOf p data) (tickPairs p data) 0 0 sp i' rsn hres
      have hj : j = i' := by omega
      subst hj
      exact ⟨start, sp, rsn, s, hstart, by rw [heq], by rw [heq], hget, hstag⟩
    · rw [heq] at h
      cases h

lemma simulate_reason_inv (p : Params) (data : List (Option ℤ)) (rsn : Reason)
    (h : (simulate_position_t p data).reason = some rsn) :
    ∃ i, (simulate_position_t p data).sell_idx = some i := by
  rcases simulate_position_t_char p data with ⟨_, _, _, hr, _, _⟩ | ⟨start, _, _, hcase⟩
  · rw [hr] at h; cases h
  · rcases hcase with ⟨sp, i, rsn', _, heq⟩ | ⟨_, heq⟩
    · exact ⟨i, by rw [heq]⟩
    · rw [heq] at h
      simp at h

lemma simulate_profit_eq (p : Params) (data : List (Option ℤ)) :
    (simulate_position_t p data).profit =
      match (simulate_position_t p data).start_price, (simulate_position_t p data).sell_price with
      | some s, some sp => FLAT_BET_AMOUNT * (sp / s - 1)
      | _, _ => 0 := by
  unfold simulate_position_t
  dsimp only
  split
  · rfl
  · split
    · rfl
    · split
      · split
        · rfl
        · rfl
      · rfl

/-! ## Claim theorems -/

/-- C8: the batch smoother's one-step update (`smooth_next` inside
`incremental_ema_smooth`) and the live runner's `ewma_update` are the same
function — raw value on an absent previous state, `alpha*raw + (1-alpha)*last`
otherwise — so on the same alpha, the same starting state and the same ordered
inputs they produce identical smoothed sequences. -/
theorem C8_smoothing_equivalence :
    (∀ (alpha : ℚ) (last : Option ℚ) (v : ℚ),
        smooth_next alpha last v = ewma_update last v alpha)
    ∧ (∀ (alpha : ℚ) (v : ℚ),
        smooth_next alpha none v = v ∧ ewma_update none v alpha = v)
    ∧ (∀ (alpha l v : ℚ),
        smooth_next alpha (some l) v = alpha * v + (1 - alpha) * l ∧
          ewma_update (some l) v alpha = alpha * v + (1 - alpha) * l)
    ∧ ∀ (alpha : ℚ) (last : Option ℚ) (ps : List ℚ),
        smoothed_full alpha last (ps.map some) = (ewma_run alpha last ps).map some := by
  refine ⟨?_, fun _ _ => ⟨rfl, rfl⟩, fun _ _ _ => ⟨rfl, rfl⟩, ?_⟩
  · intro alpha last v
    cases last <;> rfl
  · intro alpha last ps
    induction ps generalizing last with
    | nil => rfl
    | cons v vs ih =>
      cases last <;>
        simp [smoothed_full, ewma_run, smooth_next, ewma_update, ih]

/-- C10: for every positive `sigma_minutes`, the live runner's
`compute_alpha_from_sigma_minutes` equals the spec's
`clamp(1/(sigma_minutes * samples_per_minute), 0.001, 0.5)`. -/
theorem C10_alpha_clamp (sigma_minutes : ℚ) (h : 0 < sigma_minutes) :
    compute_alpha_from_sigma_minutes sigma_minutes = spec_alpha_clamp sigma_minutes := by
  unfold compute_alpha_from_sigma_minutes spec_alpha_clamp
  dsimp only
  have hspm : (0:ℚ) < SAMPLES_PER_MINUTE := by norm_num [SAMPLES_PER_MINUTE]
  have hsp : 0 < sigma_minutes * SAMPLES_PER_MINUTE := mul_pos h hspm
  rcases le_or_lt 1 (sigma_minutes * SAMPLES_PER_MINUTE) with h1 | h1
  · rw [max_eq_right h1]
  · rw [max_eq_left h1.le]
    have h2 : (1:ℚ) < 1 / (sigma_minutes * SAMPLES_PER_MINUTE) := by
      rw [lt_div_iff₀ hsp]; linarith
    rw [min_eq_right (by linarith : (1:ℚ)/2 ≤ 1/(sigma_minutes * SAMPLES_PER_MINUTE))]
    norm_num

/-- C10 witness: the reference sigma 3.32 used by the live runner. -/
theorem C10_alpha_clamp_witness :
    0 < SIGMA_REF ∧
      compute_alpha_from_sigma_minutes SIGMA_REF = spec_alpha_clamp SIGMA_REF :=
  ⟨by norm_num [SIGMA_REF], C10_alpha_clamp SIGMA_REF (by norm_num [SIGMA_REF])⟩

/-- C2: for every closed position, batch profit is
`stake * (sell_price/start_price - 1)` (ratio return with the flat 2-dollar
stake), and the live runner's realized profit on a sell is
`stake * (sell_price - start_price)` (linear payout with the flat 10-dollar
stake, the recorded sell price being `current`). -/
theorem C2_profit_formulas :
    (∀ (p : Params) (data : List (Option ℤ)) (s sp : ℚ),
        (simulate_position_t p data).start_price = some s →
        (simulate_position_t p data).sell_price = some sp →
        simulate_position p data = FLAT_BET_AMOUNT * (sp / s - 1))
    ∧ ∀ (current : ℚ) (bet : Bet),
        (evaluate_sells_for_ticker (some current) (some bet)).sold = true →
        (evaluate_sells_for_ticker (some current) (some bet)).profit =
          some (bet.bet * (current - bet.start_price)) := by
  constructor
  · intro p data s sp h1 h2
    rw [simulate_position, simulate_profit_eq, h1, h2]
  · intro current bet h
    unfold evaluate_sells_for_ticker at h ⊢
    dsimp only at h ⊢
    by_cases hc : live_sell_cond (live_max_gain bet (current - bet.start_price))
        (current - bet.start_price)
    · rw [if_pos hc]
    · rw [if_neg hc] at h
      exact absurd h (by simp)

/-- C2 witness: a flat two-tick batch series (forced close, zero profit) and a
concrete live sell. -/
theorem C2_profit_formulas_witness :
    simulate_position defaultParams [some 20, some 20] =
        FLAT_BET_AMOUNT * ((1/5) / (1/5) - 1) ∧
      (evaluate_sells_for_ticker (some (51/100)) (some ⟨10, 1/2, 1/10⟩)).profit =
        some ((10:ℚ) * (51/100 - 1/2)) :=
  ⟨C2_profit_formulas.1 defaultParams [some 20, some 20] (1/5) (1/5)
      (by norm_num [simulate_position_t, defaultParams, smoothedOf, startPriceOf, halftimeIndexOf,
        tickPairs, pricesOf, smoothed_full, smooth_next, firstSome, lastSome, sellLoopT, pythonInt,
        peakDropTrig, retracementTrig, stagnationTrig, max_def] <;> simp)
      (by norm_num [simulate_position_t, defaultParams, smoothedOf, startPriceOf, halftimeIndexOf,
        tickPairs, pricesOf, smoothed_full, smooth_next, firstSome, lastSome, sellLoopT, pythonInt,
        peakDropTrig, retracementTrig, stagnationTrig, max_def] <;> simp),
   C2_profit_formulas.2 (51/100) ⟨10, 1/2, 1/10⟩
      (by norm_num [evaluate_sells_for_ticker, live_sell_cond, live_max_gain,
        GAIN_THRESHOLD, FALL_FRACTION])⟩

/-- C7: a position is opened iff the entry price (first defined smoothed value
in the batch context, the startup smoothed value in the live context) lies in
the inclusive band `[min_start, max_start]`; a market failing the screen
contributes zero profit (batch) / is not tracked (live). -/
theorem C7_entry_band :
    (∀ (p : Params) (data : List (Option ℤ)),
        ((simulate_position_t p data).entered = true ↔
          ∃ s, startPriceOf p data = some s ∧ p.min_start ≤ s ∧ s ≤ p.max_start)
        ∧ ((simulate_position_t p data).entered = false → simulate_position p data = 0))
    ∧ ∀ (inputs : List (String × Option ℚ)) (t : String) (s : ℚ),
        (t, s) ∈ smoothedInit inputs →
        ((t, (⟨BET_AMOUNT, s, 0⟩ : Bet)) ∈ place_initial_bets inputs ↔
          MIN_START ≤ s ∧ s ≤ MAX_START) := by
  constructor
  · intro p data
    rcases simulate_position_t_char p data with ⟨he, _, _, _, hprof, hnb⟩ |
      ⟨start, hstart, hband, hcase⟩
    · constructor
      · constructor
        · intro ht
          rw [he] at ht
          cases ht
        · rintro ⟨s, hs, h1, h2⟩
          exact absurd ⟨h1, h2⟩ (hnb s hs)
      · intro _
        rw [simulate_position, hprof]
    · have he : (simulate_position_t p data).entered = true := by
        rcases hcase with ⟨sp, i, rsn, _, heq⟩ | ⟨_, heq⟩ <;> rw [heq]
      constructor
      · exact iff_of_true he ⟨start, hstart, hband.1, hband.2⟩
      · intro hf
        rw [he] at hf
        cases hf
  · intro inputs t s hmem
    unfold place_initial_bets
    constructor
    · intro hb
      rcases List.mem_filterMap.mp hb with ⟨⟨t', s'⟩, hmem', heq⟩
      dsimp only at heq
      by_cases hband : MIN_START ≤ s' ∧ s' ≤ MAX_START
      · rw [if_pos hband] at heq
        simp only [Option.some.injEq, Prod.mk.injEq, Bet.mk.injEq, true_and] at heq
        obtain ⟨-, hs', -⟩ := heq
        rw [← hs']
        exact hband
      · rw [if_neg hband] at heq
        cases heq
    · intro hband
      refine List.mem_filterMap.mpr ⟨(t, s), hmem, ?_⟩
      dsimp only
      rw [if_pos hband]

/-- C7 witness: entry exactly at the lower bound (batch) and exactly at the
upper bound (live). -/
theorem C7_entry_band_witness :
    (simulate_position_t defaultParams [some 14]).entered = true ∧
      ("T", (⟨BET_AMOUNT, 77/100, 0⟩ : Bet)) ∈ place_initial_bets [("T", some (77/100))] :=
  ⟨(C7_entry_band.1 defaultParams [some 14]).1.mpr ⟨14/100,
      by norm_num [startPriceOf, smoothedOf, pricesOf, smoothed_full, smooth_next, firstSome],
      by norm_num [defaultParams], by norm_num [defaultParams]⟩,
   (C7_entry_band.2 [("T", some (77/100))] "T" (77/100)
      (by simp [smoothedInit])).mpr
      ⟨by norm_num [MIN_START], by norm_num [MAX_START]⟩⟩

/-- C6: with `halftime_fraction = 1` (the default of `run_simulation` and the
value `super_checker_full.py` holds fixed), the halftime check index equals the
series length, which no tick index reaches, so the stagnation exit can never
fire: only peak-drop, retracement, or the end-of-series force-close can close a
batch position. -/
theorem C6_stagnation_unreachable :
    defaultParams.halftime_fraction = 1 ∧ SuperChecker.HALFTIME_FRACTION = 1 ∧
      ∀ (m M g ff a : ℚ) (data : List (Option ℤ)),
        halftimeIndexOf ⟨m, M, g, 1, ff, a⟩ data = (data.length : ℤ) ∧
        (simulate_position_t ⟨m, M, g, 1, ff, a⟩ data).reason ≠ some Reason.stagnation := by
  refine ⟨rfl, rfl, ?_⟩
  intro m M g ff a data
  have hIdx : halftimeIndexOf ⟨m, M, g, 1, ff, a⟩ data = (data.length : ℤ) := by
    rw [halftimeIndexOf]
    dsimp only
    rw [smoothedOf_length, mul_one, pythonInt_natCast]
  refine ⟨hIdx, ?_⟩
  intro h
  obtain ⟨i, hi⟩ := simulate_reason_inv _ data Reason.stagnation h
  obtain ⟨start, sp, rsn, s, _, _, hr, hget, hstag⟩ := simulate_sold_inv _ data i hi
  rw [h] at hr
  injection hr with hr
  obtain ⟨hIdxEq, -⟩ := hstag hr.symm
  have hlt : i < data.length := by
    have hl := getElem?_lt_length _ i _ hget
    rwa [tickPairs_length] at hl
  rw [hIdx] at hIdxEq
  omega

/-- C6 witness: a concrete one-tick series with halftime fraction 1 closes
without a stagnation exit. -/
theorem C6_stagnation_unreachable_witness :
    (simulate_position_t ⟨14/100, 77/100, 3/100, 1, 81/100, 1⟩ [some 50]).reason ≠
      some Reason.stagnation :=
  (C6_stagnation_unreachable.2.2 (14/100) (77/100) (3/100) (81/100) 1 [some 50]).2

/-- C5: in the batch context, a stagnation exit happens only at the tick whose
index is `floor(series_length * halftime_fraction)` (for the nonnegative
fractions the sweep uses, Python `int()` truncation is the floor), and only
with the smoothed price strictly below `start_price + gain_threshold` there. -/
theorem C5_stagnation_tick :
    (∀ (p : Params) (data : List (Option ℤ)) (i : ℕ),
        0 ≤ p.halftime_fraction →
        (simulate_position_t p data).reason = some Reason.stagnation →
        (simulate_position_t p data).sell_idx = some i →
        (i : ℤ) = ⌊(data.length : ℚ) * p.halftime_fraction⌋ ∧
          ∃ start s, startPriceOf p data = some start ∧
            (smoothedOf p data)[i]? = some (some s) ∧ s < start + p.gain_threshold)
    ∧ ∀ (p : Params) (start_price : ℚ) (halftime_index : ℤ) (idx : ℕ) (max_gain s r : ℚ)
        (rest : List (Option ℚ × Option ℚ)),
        ¬peakDropTrig p (max max_gain (s - start_price)) (s - start_price) →
        ¬retracementTrig p (max max_gain (s - start_price)) (s - start_price) →
        stagnationTrig p halftime_index idx s start_price →
        (sellLoopT p start_price halftime_index idx max_gain ((some s, some r) :: rest)).2 =
          some (r, idx, Reason.stagnation) := by
  constructor
  · intro p data i hf hr hi
    obtain ⟨start, sp, rsn, s, hstart, _, hr', hget, hstag⟩ := simulate_sold_inv p data i hi
    rw [hr] at hr'
    injection hr' with hr'
    obtain ⟨hIdxEq, hlt⟩ := hstag hr'.symm
    have hfloor : halftimeIndexOf p data = ⌊(data.length : ℚ) * p.halftime_fraction⌋ := by
      rw [halftimeIndexOf, smoothedOf_length,
        pythonInt_of_nonneg _ (mul_nonneg (by positivity) hf)]
    rw [tickPairs] at hget
    exact ⟨hfloor ▸ hIdxEq, start, s, hstart, (zip_getElem?_inv _ _ i _ _ hget).1, hlt⟩
  · intro p start_price halftime_index idx max_gain s r rest h1 h2 h3
    simp only [sellLoopT]
    rw [if_neg h1, if_neg h2, if_pos h3]

/-- C5 witness: `halftime_fraction = 1/2` on a four-tick flat series stagnates
at tick `2 = floor(4 * 1/2)`. -/
theorem C5_stagnation_tick_witness :
    ((2 : ℕ) : ℤ) =
      ⌊(([some 50, some 51, some 50, some 50] : List (Option ℤ)).length : ℚ) * (1/2)⌋ :=
  (C5_stagnation_tick.1 {halftime_fraction := 1/2, ema_alpha := 1}
    [some 50, some 51, some 50, some 50] 2
    (by norm_num)
    (by norm_num [simulate_position_t, smoothedOf, startPriceOf, halftimeIndexOf, tickPairs,
      pricesOf, smoothed_full, smooth_next, firstSome, lastSome, sellLoopT, pythonInt,
      peakDropTrig, retracementTrig, stagnationTrig, max_def] <;> simp)
    (by norm_num [simulate_position_t, smoothedOf, startPriceOf, halftimeIndexOf, tickPairs,
      pricesOf, smoothed_full, smooth_next, firstSome, lastSome, sellLoopT, pythonInt,
      peakDropTrig, retracementTrig, stagnationTrig, max_def] <;> simp)).1

/-- C1 (amended): in the batch context, whenever the loop closes a position at
tick `i` the recorded `sell_price` is the raw (unsmoothed) price of tick `i`;
in the live context, however, a sell is recorded at the smoothed `current`
value and the realized profit is computed from it, not from the raw price. -/
theorem C1_sell_price_amended :
    (∀ (p : Params) (data : List (Option ℤ)) (i : ℕ) (sp : ℚ),
        (simulate_position_t p data).sell_idx = some i →
        (simulate_position_t p data).sell_price = some sp →
        (pricesOf data)[i]? = some (some sp))
    ∧ ∀ (current : ℚ) (bet : Bet),
        (evaluate_sells_for_ticker (some current) (some bet)).sold = true →
        (evaluate_sells_for_ticker (some current) (some bet)).sell_current = some current ∧
        (evaluate_sells_for_ticker (some current) (some bet)).profit =
          some (bet.bet * (current - bet.start_price)) := by
  constructor
  · intro p data i sp hi hsp
    obtain ⟨start, sp', rsn, s, _, hsp', _, hget, _⟩ := simulate_sold_inv p data i hi
    rw [hsp] at hsp'
    injection hsp' with hsp'
    rw [tickPairs] at hget
    have hp := (zip_getElem?_inv _ _ i _ _ hget).2
    rwa [← hsp'] at hp
  · intro current bet h
    unfold evaluate_sells_for_ticker at h ⊢
    dsimp only at h ⊢
    by_cases hc : live_sell_cond (live_max_gain bet (current - bet.start_price))
        (current - bet.start_price)
    · rw [if_pos hc]
      exact ⟨rfl, rfl⟩
    · rw [if_neg hc] at h
      exact absurd h (by simp)

/-- C1 witness: a concrete batch peak-drop sell at the raw tick price and a
concrete live sell recorded at its smoothed current value. -/
theorem C1_sell_price_amended_witness :
    (pricesOf [some 30, some 40, some 32])[2]? = some (some (8/25)) ∧
      (evaluate_sells_for_ticker (some (51/100)) (some ⟨10, 1/2, 1/10⟩)).sell_current =
        some (51/100) :=
  ⟨C1_sell_price_amended.1 {ema_alpha := 1} [some 30, some 40, some 32] 2 (8/25)
      (by norm_num [simulate_position_t, smoothedOf, startPriceOf, halftimeIndexOf, tickPairs,
        pricesOf, smoothed_full, smooth_next, firstSome, lastSome, sellLoopT, pythonInt,
        peakDropTrig, retracementTrig, stagnationTrig, max_def] <;> simp)
      (by norm_num [simulate_position_t, smoothedOf, startPriceOf, halftimeIndexOf, tickPairs,
        pricesOf, smoothed_full, smooth_next, firstSome, lastSome, sellLoopT, pythonInt,
        peakDropTrig, retracementTrig, stagnationTrig, max_def] <;> simp),
   (C1_sell_price_amended.2 (51/100) ⟨10, 1/2, 1/10⟩
      (by norm_num [evaluate_sells_for_ticker, live_sell_cond, live_max_gain,
        GAIN_THRESHOLD, FALL_FRACTION])).1⟩

/-- C1 counterexample: a live single-ticker run bets at smoothed price 1/2,
sees thirteen raw ticks at 1 and then one raw tick at 0; it sells on the raw-0
tick, but records the sell at the smoothed current value (nonzero) and books a
positive profit — had the sell used the raw observed price 0, the live linear
payout would have been `10 * (0 - 1/2) = -5`. -/
theorem C1_counterexample :
    (live_run (some (1/2)) (List.replicate 13 1 ++ [0])).2 =
      List.replicate 13 ((1 : ℚ), (none : Option ℚ), (none : Option ℚ)) ++
        [(0,
          some (274142822581862283912443290446245932495675 /
            945432958218196254392843811375131400339456),
          some (1000261522734568711175332469464380586838591 /
            1890865916436392508785687622750262800678912))] ∧
      (1000261522734568711175332469464380586838591 :
        ℚ) / 1890865916436392508785687622750262800678912 ≠ 0 ∧
      (274142822581862283912443290446245932495675 :
          ℚ) / 945432958218196254392843811375131400339456 ≠
        BET_AMOUNT * (0 - 1/2) := by
  refine ⟨?_, by norm_num, by norm_num [BET_AMOUNT]⟩
  norm_num [live_run, live_run_go, live_tick, init_ticker, ewma_update, ALPHA,
    compute_alpha_from_sigma_minutes, SIGMA_REF, SAMPLES_PER_MINUTE,
    evaluate_sells_for_ticker, live_sell_cond, live_max_gain, GAIN_THRESHOLD, FALL_FRACTION,
    MIN_START, MAX_START, BET_AMOUNT, List.replicate]

/-- C4 (amended): the batch loop's per-tick behaviour depends only on the
disjunction of the three trigger predicates — when none holds the loop
continues with the updated peak, and when any holds it sells at the raw price
of that tick, whichever trigger it was — so evaluation order affects only
which branch is taken, never the sell outcome. -/
theorem C4_triggers_amended (p : Params) (start_price : ℚ) (halftime_index : ℤ) (idx : ℕ)
    (max_gain s r : ℚ) (rest : List (Option ℚ × Option ℚ)) :
    (¬(peakDropTrig p (max max_gain (s - start_price)) (s - start_price) ∨
          retracementTrig p (max max_gain (s - start_price)) (s - start_price) ∨
          stagnationTrig p halftime_index idx s start_price) →
        (sellLoopT p start_price halftime_index idx max_gain ((some s, some r) :: rest)).2 =
          (sellLoopT p start_price halftime_index (idx + 1)
            (max max_gain (s - start_price)) rest).2)
    ∧ ((peakDropTrig p (max max_gain (s - start_price)) (s - start_price) ∨
          retracementTrig p (max max_gain (s - start_price)) (s - start_price) ∨
          stagnationTrig p halftime_index idx s start_price) →
        ∃ rsn,
          (sellLoopT p start_price halftime_index idx max_gain ((some s, some r) :: rest)).2 =
            some (r, idx, rsn)) := by
  constructor
  · intro h
    push_neg at h
    obtain ⟨h1, h2, h3⟩ := h
    simp only [sellLoopT]
    rw [if_neg h1, if_neg h2, if_neg h3]
  · intro h
    simp only [sellLoopT]
    by_cases h1 : peakDropTrig p (max max_gain (s - start_price)) (s - start_price)
    · exact ⟨Reason.peakDrop, by rw [if_pos h1]⟩
    · rw [if_neg h1]
      by_cases h2 : retracementTrig p (max max_gain (s - start_price)) (s - start_price)
      · exact ⟨Reason.retracement, by rw [if_pos h2]⟩
      · rw [if_neg h2]
        have h3 : stagnationTrig p halftime_index idx s start_price := by tauto
        exact ⟨Reason.stagnation, by rw [if_pos h3]⟩

/-- C4 witness: a tick where no trigger holds steps the loop to the tail with
the updated peak gain. -/
theorem C4_triggers_amended_witness :
    (sellLoopT defaultParams (3/10) 3 0 0 [(some (3/10), some (3/10))]).2 =
      (sellLoopT defaultParams (3/10) 3 1 (max 0 (3/10 - 3/10)) []).2 :=
  (C4_triggers_amended defaultParams (3/10) 3 0 0 (3/10) (3/10) []).1
    (by norm_num [peakDropTrig, retracementTrig, stagnationTrig, defaultParams])

lemma simFiles_ok_forall (p : Params) (contents : String → Except String (List (Option ℤ))) :
    ∀ (fs : List String) (q : ℚ), simFiles p contents fs = Except.ok q →
      ∀ f ∈ fs, ∃ d, contents f = Except.ok d := by
  intro fs
  induction fs with
  | nil => intro q _ f hf; cases hf
  | cons g gs ih =>
    intro q h f hf
    rw [simFiles] at h
    cases hc : contents g with
    | error e => rw [hc] at h; cases h
    | ok d =>
      rw [hc] at h
      rcases List.mem_cons.mp hf with rfl | hf'
      · exact ⟨d, hc⟩
      · cases hs : simFiles p contents gs with
        | error e => rw [hs] at h; cases h
        | ok q' => exact ih q' hs f hf'

/-- Contents map for the C3 scenario: one well-formed side of the game, one
side whose JSON does not parse. -/
def contentsC3 : String → Except String (List (Option ℤ)) :=
  fun fn => if fn = "g-a.json" then Except.ok [some 50] else Except.error "invalid JSON"

/-- C3 counterexample: a week folder with a well-formed file `g-a.json` and an
unparseable file `g-b.json` paired under one key. The backtest's file loop has
no handler around `json.load`, so the run aborts with the parse error instead
of skipping the file and continuing. -/
theorem C3_counterexample :
    run_week_exc defaultParams contentsC3 ["g-a.json", "g-b.json"] =
      Except.error "invalid JSON" := by
  rfl

/-- C3 (amended): the skip-with-warning on `json.JSONDecodeError` lives in the
filtering preprocessing stage (filter.py), which drops the unparseable file and
continues with the rest; the backtest runner itself parses with no handler, so
an unparseable file among a simulated pair's files aborts the run (it can never
return a bankroll). -/
theorem C3_malformed_amended :
    (∀ (D : Type) (pre post : List (String × Except String D)) (f e : String),
        FilterPy.process_files (pre ++ (f, Except.error e) :: post) =
          FilterPy.process_files pre ++ FilterPy.process_files post)
    ∧ ∀ (p : Params) (contents : String → Except String (List (Option ℤ)))
        (folder : List String) (f e : String),
        f ∈ pairFiles folder → contents f = Except.error e →
        ∀ q, run_week_exc p contents folder ≠ Except.ok q := by
  constructor
  · intro D pre post f e
    simp [FilterPy.process_files, List.filterMap_append]
  · intro p contents folder f e hmem herr q hok
    rw [run_week_exc] at hok
    obtain ⟨d, hd⟩ := simFiles_ok_forall p contents (pairFiles folder) q hok f hmem
    rw [herr] at hd
    cases hd

/-- C3 witness: filter.py's loop drops exactly the unparseable middle file;
the backtest on the C3 folder cannot return the seeded bankroll. -/
theorem C3_malformed_amended_witness :
    FilterPy.process_files
        [("a.json", Except.ok (1 : ℕ)), ("b.json", Except.error "bad"), ("c.json", Except.ok 2)] =
      FilterPy.process_files [("a.json", Except.ok (1 : ℕ))] ++
        FilterPy.process_files [("c.json", Except.ok (2 : ℕ))] ∧
      run_week_exc defaultParams contentsC3 ["g-a.json", "g-b.json"] ≠ Except.ok 20 :=
  ⟨C3_malformed_amended.1 ℕ [("a.json", Except.ok 1)] [("c.json", Except.ok 2)] "b.json" "bad",
   C3_malformed_amended.2 defaultParams contentsC3 ["g-a.json", "g-b.json"] "g-b.json"
      "invalid JSON" (by decide) (by rfl) 20⟩

/-- C4 counterexample: running `simulate_position` with `ema_alpha = 1` on raw
cents `[30, 40, 32]` reaches tick 2 with `max_gain = 1/10`, `gain = 1/50`, a
state at which the peak-drop and the retracement predicates BOTH hold — the
three exit triggers are not mutually exclusive. -/
theorem C4_counterexample :
    (simulate_position_t {ema_alpha := 1} [some 30, some 40, some 32]).trace =
        [(0, 0, 0), (1, 1/10, 1/10), (2, 1/10, 1/50)] ∧
      peakDropTrig {ema_alpha := 1} (1/10) (1/50) ∧
      retracementTrig {ema_alpha := 1} (1/10) (1/50) := by
  refine ⟨?_, by norm_num [peakDropTrig], by norm_num [retracementTrig]⟩
  norm_num [simulate_position_t, smoothedOf, startPriceOf, halftimeIndexOf, tickPairs,
    pricesOf, smoothed_full, smooth_next, firstSome, lastSome, sellLoopT, pythonInt,
    peakDropTrig, retracementTrig, stagnationTrig, max_def] <;> simp

/-! ## Pairing-rule machinery (C9) -/

/-- Entries of a games association list carrying the given key. -/
def kEntries (k : String) (gs : List (String × List String)) : List (String × List String) :=
  gs.filter (fun kv => decide (kv.1 = k))

/-- Entries of a games association list carrying a different key. -/
def dropKey (k : String) (gs : List (String × List String)) : List (String × List String) :=
  gs.filter (fun kv => decide (kv.1 ≠ k))

/-- How one more batch of files with key `k` extends the `k`-entries: appended
to the first existing entry, or one fresh entry when none exists. -/
def extendK (k : String) : List (String × List String) → List String → List (String × List String)
  | [], [] => []
  | [], l => [(k, l)]
  | (k₀, v) :: rest, l => (k₀, v ++ l) :: rest

lemma kEntries_addFile_same (k f : String) :
    ∀ gs, kEntries k (addFile gs k f) = extendK k (kEntries k gs) [f] := by
  intro gs
  induction gs with
  | nil => simp [kEntries, addFile, extendK]
  | cons hd tl ih =>
    obtain ⟨k₀, v⟩ := hd
    by_cases hk : k₀ = k
    · subst hk
      simp [addFile, kEntries, extendK]
    · simp only [addFile, if_neg hk, kEntries, List.filter_cons]
      simp only [kEntries] at ih
      simp [hk, ih]

lemma kEntries_addFile_ne (k key f : String) (hne : key ≠ k) :
    ∀ gs, kEntries k (addFile gs key f) = kEntries k gs := by
  intro gs
  unfold kEntries
  induction gs with
  | nil => simp [addFile, hne]
  | cons hd tl ih =>
    obtain ⟨k₀, v⟩ := hd
    by_cases hk : k₀ = key
    · simp [addFile, hk, List.filter_cons, hne]
    · simp [addFile, if_neg hk, List.filter_cons, ih]

lemma extendK_extendK (k : String) (ke : List (String × List String)) (l₁ l₂ : List String) :
    extendK k (extendK k ke l₁) l₂ = extendK k ke (l₁ ++ l₂) := by
  cases ke with
  | nil =>
    cases l₁ with
    | nil => simp [extendK]
    | cons x xs => simp [extendK]
  | cons hd rest =>
    obtain ⟨k₀, v⟩ := hd
    simp [extendK, List.append_assoc]

lemma kEntries_buildGames (k : String) :
    ∀ (fs : List String) (acc : List (String × List String)),
      kEntries k (buildGames acc fs) =
        extendK k (kEntries k acc) (fs.filter (fun f => decide (gameKey f = k))) := by
  intro fs
  induction fs with
  | nil =>
    intro acc
    rw [buildGames, List.filter_nil]
    cases h : kEntries k acc with
    | nil => simp [extendK]
    | cons hd tl =>
      obtain ⟨k₀, v⟩ := hd
      simp [extendK]
  | cons f fs ih =>
    intro acc
    rw [buildGames, ih]
    by_cases hf : gameKey f = k
    · rw [List.filter_cons, if_pos (by simp [hf]), hf, kEntries_addFile_same,
        extendK_extendK]
      rfl
    · rw [List.filter_cons, if_neg (by simp [hf]), kEntries_addFile_ne k (gameKey f) f hf]

lemma dropKey_addFile_same (k f : String) :
    ∀ gs, dropKey k (addFile gs k f) = dropKey k gs := by
  intro gs
  unfold dropKey
  simp only [ne_eq, decide_not]
  induction gs with
  | nil => simp [addFile]
  | cons hd tl ih =>
    obtain ⟨k₀, v⟩ := hd
    by_cases hk : k₀ = k
    · simp [addFile, hk, List.filter_cons]
    · simp [addFile, if_neg hk, List.filter_cons, hk, ih]

lemma dropKey_addFile_ne (k key f : String) (hne : key ≠ k) :
    ∀ gs, addFile (dropKey k gs) key f = dropKey k (addFile gs key f) := by
  intro gs
  unfold dropKey
  simp only [ne_eq, decide_not]
  induction gs with
  | nil => simp [addFile, hne]
  | cons hd tl ih =>
    obtain ⟨k₀, v⟩ := hd
    by_cases hkey : k₀ = key
    · simp [addFile, hkey, List.filter_cons, hne, Ne.symm hne]
    · by_cases hk : k₀ = k
      · simp [addFile, if_neg hkey, hk, List.filter_cons, ih, hne, Ne.symm hne]
      · simp [addFile, if_neg hkey, hk, List.filter_cons, ih]

lemma buildGames_dropKey (k : String) :
    ∀ (fs : List String) (acc : List (String × List String)),
      buildGames (dropKey k acc) (fs.filter (fun f => decide (gameKey f ≠ k))) =
        dropKey k (buildGames acc fs) := by
  intro fs
  induction fs with
  | nil => intro acc; simp [buildGames]
  | cons f fs ih =>
    intro acc
    by_cases hf : gameKey f = k
    · rw [List.filter_cons, if_neg (by simp [hf]), buildGames, ← ih (addFile acc (gameKey f) f),
        hf, dropKey_addFile_same]
    · rw [List.filter_cons, if_pos (by simp [hf]), buildGames, buildGames,
        dropKey_addFile_ne k (gameKey f) f hf, ih]

lemma get_game_pairs_dropKey (folder : List String) (k : String) :
    get_game_pairs (folder.filter (fun f => decide (gameKey f ≠ k))) =
      (get_game_pairs folder).filter (fun kv => decide (kv.1 ≠ k)) := by
  unfold get_game_pairs
  dsimp only
  have hfiles : (folder.filter (fun f => decide (gameKey f ≠ k))).filter
        (fun f => isJsonFile f) =
      (folder.filter (fun f => isJsonFile f)).filter (fun f => decide (gameKey f ≠ k)) := by
    rw [List.filter_filter, List.filter_filter]
    exact List.filter_congr (fun x _ => Bool.and_comm _ _)
  have hbuild := buildGames_dropKey k (folder.filter (fun f => isJsonFile f)) []
  rw [show dropKey k ([] : List (String × List String)) = [] from rfl] at hbuild
  rw [hfiles, hbuild, dropKey, List.filter_filter, List.filter_filter]
  exact List.filter_congr (fun x _ => Bool.and_comm _ _)

lemma mem_get_game_pairs_key (folder : List String) (k : String) (fl : List String)
    (h : (k, fl) ∈ get_game_pairs folder) :
    fl = (folder.filter (fun f => isJsonFile f)).filter (fun f => decide (gameKey f = k)) ∧
      fl.length = 2 := by
  rw [get_game_pairs] at h
  have hlen : fl.length = 2 := by
    have := (List.mem_filter.mp h).2
    simpa using this
  have hmem : (k, fl) ∈ buildGames [] (folder.filter (fun f => isJsonFile f)) :=
    (List.mem_filter.mp h).1
  have hke : (k, fl) ∈ kEntries k (buildGames [] (folder.filter (fun f => isJsonFile f))) := by
    rw [kEntries, List.mem_filter]
    exact ⟨hmem, by simp⟩
  rw [kEntries_buildGames k _ []] at hke
  rw [show kEntries k ([] : List (String × List String)) = [] from rfl] at hke
  rcases hml : (folder.filter (fun f => isJsonFile f)).filter
      (fun f => decide (gameKey f = k)) with _ | ⟨x, xs⟩
  · rw [hml] at hke
    simp [extendK] at hke
  · rw [hml] at hke
    simp only [extendK, List.mem_singleton, Prod.mk.injEq] at hke
    exact ⟨hke.2, hlen⟩

/-- C9: only keys with exactly two `.json` files are simulated — every
simulated pair has exactly two files, a key with any other file count appears
nowhere among the pairs, and deleting all of that key's files from the week
folder leaves the week's profit unchanged (the key contributed exactly
nothing). -/
theorem C9_pairing_rule :
    (∀ (folder : List String) (k : String) (fl : List String),
        (k, fl) ∈ get_game_pairs folder → fl.length = 2)
    ∧ ∀ (p : Params) (contents : String → List (Option ℤ)) (folder : List String) (k : String),
        countKey k folder ≠ 2 →
        (∀ fl, (k, fl) ∉ get_game_pairs folder) ∧
          weekProfit p contents (folder.filter (fun f => decide (gameKey f ≠ k))) =
            weekProfit p contents folder := by
  constructor
  · intro folder k fl h
    exact (mem_get_game_pairs_key folder k fl h).2
  · intro p contents folder k hcount
    have hnot : ∀ fl, (k, fl) ∉ get_game_pairs folder := by
      intro fl hmem
      obtain ⟨hfl, hlen⟩ := mem_get_game_pairs_key folder k fl hmem
      rw [hfl] at hlen
      exact hcount hlen
    refine ⟨hnot, ?_⟩
    rw [weekProfit, weekProfit, get_game_pairs_dropKey]
    have hself : (get_game_pairs folder).filter (fun kv => decide (kv.1 ≠ k)) =
        get_game_pairs folder := by
      rw [List.filter_eq_self]
      intro kv hkv
      simp only [decide_eq_true_eq]
      intro hk
      exact hnot kv.2 (by rw [← hk]; exact hkv)
    rw [hself]

/-- C9 witness: a week folder where key `h` has three files — that key is
absent from the simulated pairs, and deleting its files leaves the bankroll
contribution unchanged. -/
theorem C9_pairing_rule_witness :
    ("h", ["h-a.json", "h-b.json", "h-c.json"]) ∉
        get_game_pairs ["g-a.json", "g-b.json", "h-a.json", "h-b.json", "h-c.json"] ∧
      weekProfit defaultParams (fun _ => [some 50])
          ((["g-a.json", "g-b.json", "h-a.json", "h-b.json", "h-c.json"] : List String).filter
            (fun f => decide (gameKey f ≠ "h"))) =
        weekProfit defaultParams (fun _ => [some 50])
          ["g-a.json", "g-b.json", "h-a.json", "h-b.json", "h-c.json"] :=
  ⟨(C9_pairing_rule.2 defaultParams (fun _ => [some 50])
      ["g-a.json", "g-b.json", "h-a.json", "h-b.json", "h-c.json"] "h" (by decide)).1 _,
   (C9_pairing_rule.2 defaultParams (fun _ => [some 50])
      ["g-a.json", "g-b.json", "h-a.json", "h-b.json", "h-c.json"] "h" (by decide)).2⟩

end FootballOdds
